import Mathlib

/-!
Shallow embedding of `src/nodes/AzureMessageBusNode/AzureMessageBusNode.node.ts`
(the `execute` method of the `AzureMessageBusNode` n8n node, lines 165-266).

The host execution context (`IExecuteFunctions`) is modelled by `Host`:
`getNodeParameter(name, itemIndex)` becomes one function per parameter name,
indexed by the item index; `getInputData().length` becomes `numItems`;
`continueOnFail()` becomes `continueOnFail`.  Message bodies are an abstract
type `β` (they are opaque JSON values passed through unchanged).

The Azure Service Bus SDK is modelled by `Bus`: each SDK call's outcome is
an injected result (`none`/`Except.ok` = the awaited promise resolves,
`some msg`/`Except.error msg` = it rejects with an error whose `.message` is
`msg`).  `execute` returns the ordered trace of SDK calls it performed
together with either the returned `INodeExecutionData[][]` value or the
propagated error.
-/

namespace AzureMessageBus

/-- A message fetched from the bus: a body plus bus-assigned delivery handle. -/
structure SbMessage (β : Type) where
  body : β
  deliveryHandle : Nat
deriving DecidableEq, Repr

/-- The host execution context: `getNodeParameter(name, itemIndex)` per
parameter name, the input item count, and the continue-on-failure flag. -/
structure Host (β : Type) where
  connectionString : Nat → String
  queueOrTopic : Nat → String
  subscriptionName : Nat → String
  operation : Nat → String
  messageBody : Nat → β
  maxMessages : Nat → Nat
  maxWaitTime : Nat → Nat
  postProcess : Nat → String
  receiveMode : Nat → String
  numItems : Nat
  continueOnFail : Bool

/-- Outcomes of the SDK calls: `none` / `.ok` means the awaited call
resolves; `some m` / `.error m` means it rejects with message `m`.
`sendResult i` is the outcome of the `sendMessages` call made for input
item `i` (the loop performs at most one send per item, in item order). -/
structure Bus (β : Type) where
  sendResult : Nat → Option String
  peekResult : Except String (List (SbMessage β))
  receiveResult : Except String (List (SbMessage β))
  completeErr : SbMessage β → Option String
  abandonErr : SbMessage β → Option String
  deadLetterErr : SbMessage β → Option String
  senderCloseErr : Option String
  receiverCloseErr : Option String
  clientCloseErr : Option String

/-- One SDK call, recorded in the order the code awaits them. -/
inductive Ev (β : Type) where
  | createClient (conn : String)
  | createSender (dest : String)
  | sendMsg (body : β)
  | closeSender
  | createReceiver (dest : String) (sub : Option String)
  | peekMessages (maxN : Nat)
  | receiveMessages (maxN : Nat) (waitMs : Nat)
  | completeMessage (m : SbMessage β)
  | abandonMessage (m : SbMessage β)
  | deadLetterMessage (m : SbMessage β)
  | closeReceiver
  | closeClient
deriving DecidableEq, Repr

/-- One output record (the `json` object pushed onto `returnData`); a JS
object field that the code does not set on that record shape is `none`. -/
structure RecJson (β : Type) where
  success : Bool := true
  itemIndex : Option Nat := none
  messageSent : Option β := none
  error : Option String := none
  operation : Option String := none
  queueOrTopic : Option String := none
  subscriptionName : Option String := none
  messagesReceived : Option (List β) := none
deriving DecidableEq, Repr

/-- A `NodeOperationError`: message text plus the optional `itemIndex`
option passed at construction. -/
structure NodeErr where
  message : String
  itemIndex : Option Nat := none
deriving DecidableEq, Repr

/-- The record `{ success: true, itemIndex, messageSent }` (line 196-202). -/
def sendOkRec {β : Type} (i : Nat) (b : β) : RecJson β :=
  { success := true, itemIndex := some i, messageSent := some b }

/-- The record `{ success: false, itemIndex, error }` (line 206-212). -/
def sendFailRec {β : Type} (i : Nat) (err : String) : RecJson β :=
  { success := false, itemIndex := some i, error := some err }

/-- The receive summary record (lines 249-257). -/
def receiveRec {β : Type} (dest sub : String) (bodies : List β) : RecJson β :=
  { success := true, operation := some "receive", queueOrTopic := some dest,
    subscriptionName := some sub, messagesReceived := some bodies }

/-- The message of the outer wrapping `NodeOperationError` (line 260). -/
def wrapMsg (op errMsg : String) : String :=
  "Erro ao executar a operacao " ++ op ++ ": " ++ errMsg

/-- The per-item send loop (lines 182-217): for each item index, resolve the
body, attempt the send; on failure either record a failure entry and go on
(`continueOnFail`) or abort with a `NodeOperationError` tagged `{ itemIndex }`.
Returns (SDK events, records pushed, abort error if any). -/
def sendItems {β : Type} (host : Host β) (bus : Bus β) :
    List Nat → List (Ev β) × List (RecJson β) × Option NodeErr
  | [] => ([], [], none)
  | i :: rest =>
    let body := host.messageBody i
    match bus.sendResult i with
    | none =>
      let (tr, recs, err) := sendItems host bus rest
      (Ev.sendMsg body :: tr, sendOkRec i body :: recs, err)
    | some m =>
      if host.continueOnFail then
        let (tr, recs, err) := sendItems host bus rest
        (Ev.sendMsg body :: tr, sendFailRec i m :: recs, err)
      else
        ([Ev.sendMsg body], [], some { message := m, itemIndex := some i })

/-- One post-processing step (lines 239-245): the single SDK call made for
a fetched message (none if `postProcess` matches no branch), and its outcome. -/
def postStep {β : Type} (bus : Bus β) (pp : String) (m : SbMessage β) :
    List (Ev β) × Option String :=
  if pp = "complete" then ([Ev.completeMessage m], bus.completeErr m)
  else if pp = "abandon" then ([Ev.abandonMessage m], bus.abandonErr m)
  else if pp = "deadLetter" then ([Ev.deadLetterMessage m], bus.deadLetterErr m)
  else ([], none)

/-- The post-processing loop over fetched messages (lines 238-246); a
rejected call aborts the loop. -/
def postLoop {β : Type} (bus : Bus β) (pp : String) :
    List (SbMessage β) → List (Ev β) × Option String
  | [] => ([], none)
  | m :: rest =>
    let (ev, err) := postStep bus pp m
    match err with
    | some e => (ev, some e)
    | none =>
      let (tr, err2) := postLoop bus pp rest
      (ev ++ tr, err2)

/-- The body of the `try` block (lines 177-258): the send branch, the
receive branch (peek / receive-and-post-process), or nothing when the
operation matches neither.  Returns the SDK events of the block and either
the records pushed onto `returnData` or the error thrown out of the block. -/
def execBody {β : Type} (host : Host β) (bus : Bus β) :
    List (Ev β) × Except NodeErr (List (RecJson β)) :=
  let op := host.operation 0
  if op = "send" then
    let dest := host.queueOrTopic 0
    let (tr, recs, err) := sendItems host bus (List.range host.numItems)
    match err with
    | some e => (Ev.createSender dest :: tr, Except.error e)
    | none =>
      match bus.senderCloseErr with
      | some m =>
        (Ev.createSender dest :: tr ++ [Ev.closeSender], Except.error { message := m })
      | none =>
        (Ev.createSender dest :: tr ++ [Ev.closeSender], Except.ok recs)
  else if op = "receive" then
    let dest := host.queueOrTopic 0
    let sub := host.subscriptionName 0
    let maxN := host.maxMessages 0
    let waitMs := host.maxWaitTime 0
    let pp := host.postProcess 0
    let mode := host.receiveMode 0
    let rcv : Ev β := Ev.createReceiver dest (if sub = "" then none else some sub)
    if mode = "peek" then
      match bus.peekResult with
      | Except.error m => ([rcv, Ev.peekMessages maxN], Except.error { message := m })
      | Except.ok msgs =>
        match bus.receiverCloseErr with
        | some m =>
          ([rcv, Ev.peekMessages maxN, Ev.closeReceiver], Except.error { message := m })
        | none =>
          ([rcv, Ev.peekMessages maxN, Ev.closeReceiver],
            Except.ok [receiveRec dest sub (msgs.map SbMessage.body)])
    else
      match bus.receiveResult with
      | Except.error m =>
        ([rcv, Ev.receiveMessages maxN waitMs], Except.error { message := m })
      | Except.ok msgs =>
        let (ptr, perr) := postLoop bus pp msgs
        match perr with
        | some m =>
          (rcv :: Ev.receiveMessages maxN waitMs :: ptr, Except.error { message := m })
        | none =>
          match bus.receiverCloseErr with
          | some m =>
            (rcv :: Ev.receiveMessages maxN waitMs :: ptr ++ [Ev.closeReceiver],
              Except.error { message := m })
          | none =>
            (rcv :: Ev.receiveMessages maxN waitMs :: ptr ++ [Ev.closeReceiver],
              Except.ok [receiveRec dest sub (msgs.map SbMessage.body)])
  else ([], Except.ok [])

/-- The whole `execute` method (lines 165-266): resolve the index-0
parameters, open the client, run the try body, wrap any thrown error in an
operation-tagged `NodeOperationError` without an item index (line 260), then
run the `finally` (line 262): the client is closed unconditionally, and if
that close rejects, its error supersedes the pending result (JS `finally`
semantics).  On success the value is `[returnData]`. -/
def execute {β : Type} (host : Host β) (bus : Bus β) :
    List (Ev β) × Except NodeErr (List (List (RecJson β))) :=
  let op := host.operation 0
  let conn := host.connectionString 0
  let (tr, res) := execBody host bus
  let caught : Except NodeErr (List (RecJson β)) :=
    match res with
    | Except.ok recs => Except.ok recs
    | Except.error e => Except.error { message := wrapMsg op e.message }
  let fullTr := Ev.createClient conn :: tr ++ [Ev.closeClient]
  match bus.clientCloseErr with
  | some m => (fullTr, Except.error { message := m })
  | none =>
    match caught with
    | Except.ok recs => (fullTr, Except.ok [recs])
    | Except.error e => (fullTr, Except.error e)

/-- Is this event a `sender.sendMessages` call? -/
def isSendMsg {β : Type} : Ev β → Bool
  | Ev.sendMsg _ => true
  | _ => false

/-- Is this event a `sender.close` call? -/
def isCloseSender {β : Type} : Ev β → Bool
  | Ev.closeSender => true
  | _ => false

/-- Is this event a `createReceiver` call? -/
def isCreateReceiver {β : Type} : Ev β → Bool
  | Ev.createReceiver _ _ => true
  | _ => false

/-- Is this event a `receiver.close` call? -/
def isCloseReceiver {β : Type} : Ev β → Bool
  | Ev.closeReceiver => true
  | _ => false

/-- Is this event a `sbClient.close` call? -/
def isCloseClient {β : Type} : Ev β → Bool
  | Ev.closeClient => true
  | _ => false

/-- Is this event a `createSender` call? -/
def isCreateSender {β : Type} : Ev β → Bool
  | Ev.createSender _ => true
  | _ => false

/-- Is this event one of the three post-processing calls
(`completeMessage` / `abandonMessage` / `deadLetterMessage`)? -/
def isPostEv {β : Type} : Ev β → Bool
  | Ev.completeMessage _ => true
  | Ev.abandonMessage _ => true
  | Ev.deadLetterMessage _ => true
  | _ => false

/-- The outcome of the single post-processing call the code makes for a
message under configuration `pp` (mirrors the branch structure of
`postStep`). -/
def postErr {β : Type} (bus : Bus β) (pp : String) (m : SbMessage β) : Option String :=
  if pp = "complete" then bus.completeErr m
  else if pp = "abandon" then bus.abandonErr m
  else if pp = "deadLetter" then bus.deadLetterErr m
  else none

/-- The single post-processing event for a message under one of the three
configured actions (used only when `pp` is one of the three). -/
def postEvOf {β : Type} (pp : String) (m : SbMessage β) : Ev β :=
  if pp = "complete" then Ev.completeMessage m
  else if pp = "abandon" then Ev.abandonMessage m
  else Ev.deadLetterMessage m

/-! ### Structural lemmas about the send loop -/

theorem sendItems_all_ok {β : Type} (host : Host β) (bus : Bus β) (l : List Nat)
    (h : ∀ i ∈ l, bus.sendResult i = none) :
    sendItems host bus l =
      (l.map fun i => Ev.sendMsg (host.messageBody i),
       l.map fun i => sendOkRec i (host.messageBody i), none) := by
  induction l with
  | nil => rfl
  | cons i rest ih =>
    have hi : bus.sendResult i = none := h i (List.mem_cons_self i rest)
    have hr := ih fun j hj => h j (List.mem_cons_of_mem _ hj)
    simp [sendItems, hi, hr]

theorem sendItems_cof {β : Type} (host : Host β) (bus : Bus β)
    (hcf : host.continueOnFail = true) (l : List Nat) :
    sendItems host bus l =
      (l.map fun i => Ev.sendMsg (host.messageBody i),
       l.map fun i =>
         match bus.sendResult i with
         | none => sendOkRec i (host.messageBody i)
         | some e => sendFailRec i e,
       none) := by
  induction l with
  | nil => rfl
  | cons i rest ih =>
    cases hi : bus.sendResult i with
    | none => simp [sendItems, hi, ih]
    | some e => simp [sendItems, hi, hcf, ih]

theorem sendItems_abort {β : Type} (host : Host β) (bus : Bus β)
    (hcf : host.continueOnFail = false)
    (l1 : List Nat) (k : Nat) (l2 : List Nat) (m : String)
    (h1 : ∀ i ∈ l1, bus.sendResult i = none)
    (hk : bus.sendResult k = some m) :
    sendItems host bus (l1 ++ k :: l2) =
      ((l1.map fun i => Ev.sendMsg (host.messageBody i)) ++
          [Ev.sendMsg (host.messageBody k)],
       l1.map fun i => sendOkRec i (host.messageBody i),
       some { message := m, itemIndex := some k }) := by
  induction l1 with
  | nil => simp [sendItems, hk, hcf]
  | cons i rest ih =>
    have hi : bus.sendResult i = none := h1 i (List.mem_cons_self i rest)
    have hr := ih fun j hj => h1 j (List.mem_cons_of_mem _ hj)
    simp [sendItems, hi, hr]

theorem sendItems_trace_mem {β : Type} (host : Host β) (bus : Bus β) (l : List Nat) :
    ∀ e ∈ (sendItems host bus l).1, isSendMsg e = true := by
  induction l with
  | nil => intro e he; simp [sendItems] at he
  | cons i rest ih =>
    intro e he
    cases hi : bus.sendResult i with
    | none =>
      simp [sendItems, hi] at he
      rcases he with he | he
      · simp [he, isSendMsg]
      · exact ih e he
    | some m =>
      by_cases hcf : host.continueOnFail
      · simp [sendItems, hi, hcf] at he
        rcases he with he | he
        · simp [he, isSendMsg]
        · exact ih e he
      · simp [sendItems, hi, hcf] at he
        simp [he, isSendMsg]

/-! ### Structural lemmas about the post-processing loop -/

theorem postStep_snd {β : Type} (bus : Bus β) (pp : String) (m : SbMessage β) :
    (postStep bus pp m).2 = postErr bus pp m := by
  unfold postStep postErr
  split_ifs <;> rfl

theorem postStep_fst_mem {β : Type} (bus : Bus β) (pp : String) (m : SbMessage β) :
    ∀ e ∈ (postStep bus pp m).1, isPostEv e = true := by
  intro e he
  unfold postStep at he
  split_ifs at he <;> simp at he <;> simp [he, isPostEv]

theorem postLoop_all_ok {β : Type} (bus : Bus β) (pp : String)
    (msgs : List (SbMessage β))
    (h : ∀ m ∈ msgs, postErr bus pp m = none) :
    postLoop bus pp msgs =
      ((msgs.map fun m => (postStep bus pp m).1).flatten, none) := by
  induction msgs with
  | nil => rfl
  | cons m rest ih =>
    have hm : (postStep bus pp m).2 = none := by
      rw [postStep_snd]; exact h m (List.mem_cons_self m rest)
    have hr := ih fun x hx => h x (List.mem_cons_of_mem _ hx)
    unfold postLoop
    rw [show (postStep bus pp m) = ((postStep bus pp m).1, none) from by
      rw [← hm]]
    simp [hr]

theorem postLoop_trace_mem {β : Type} (bus : Bus β) (pp : String)
    (msgs : List (SbMessage β)) :
    ∀ e ∈ (postLoop bus pp msgs).1, isPostEv e = true := by
  induction msgs with
  | nil => intro e he; simp [postLoop] at he
  | cons m rest ih =>
    intro e he
    unfold postLoop at he
    cases hp : (postStep bus pp m).2 with
    | some err =>
      rw [show (postStep bus pp m) = ((postStep bus pp m).1, some err) from by
        rw [← hp]] at he
      simp at he
      exact postStep_fst_mem bus pp m e he
    | none =>
      rw [show (postStep bus pp m) = ((postStep bus pp m).1, none) from by
        rw [← hp]] at he
      simp at he
      rcases he with he | he
      · exact postStep_fst_mem bus pp m e he
      · exact ih e he

theorem postLoop_of_action {β : Type} (bus : Bus β) (pp : String)
    (msgs : List (SbMessage β))
    (hp : pp = "complete" ∨ pp = "abandon" ∨ pp = "deadLetter")
    (h : ∀ m ∈ msgs, postErr bus pp m = none) :
    postLoop bus pp msgs = (msgs.map (postEvOf pp), none) := by
  rw [postLoop_all_ok bus pp msgs h]
  congr 1
  induction msgs with
  | nil => rfl
  | cons m rest ih =>
    have hr := ih fun x hx => h x (List.mem_cons_of_mem _ hx)
    rcases hp with hp | hp | hp <;>
      subst hp <;>
      simp [postStep, postEvOf] at hr ⊢ <;>
      exact hr

/-! ### Claim C1 -/

/-- C1: a send invocation with N input items, continue-on-failure disabled
and no transmission failures returns exactly N output records, the record at
position i being `{success: true, itemIndex: i, messageSent: body i}`, in
input order. -/
theorem send_all_ok_returns_one_record_per_item {β : Type}
    (host : Host β) (bus : Bus β)
    (hop : host.operation 0 = "send")
    (_hcf : host.continueOnFail = false)
    (hok : ∀ i < host.numItems, bus.sendResult i = none)
    (hsc : bus.senderCloseErr = none)
    (hcc : bus.clientCloseErr = none) :
    (execute host bus).2 =
      Except.ok [(List.range host.numItems).map
        fun i => sendOkRec i (host.messageBody i)] := by
  have hsend := sendItems_all_ok host bus (List.range host.numItems)
    fun i hi => hok i (List.mem_range.mp hi)
  simp [execute, execBody, hop, hsend, hsc, hcc]

/-- Concrete run for C1: two items, both sends succeed. -/
def hostC1 : Host String :=
  { connectionString := fun _ => "cs"
    queueOrTopic := fun _ => "q"
    subscriptionName := fun _ => ""
    operation := fun _ => "send"
    messageBody := fun i => "body" ++ toString i
    maxMessages := fun _ => 1
    maxWaitTime := fun _ => 5000
    postProcess := fun _ => "complete"
    receiveMode := fun _ => "receiveAndComplete"
    numItems := 2
    continueOnFail := false }

/-- A bus on which every SDK call succeeds; `peekResult` and
`receiveResult` deliver `msgs`. -/
def busAllOk (msgs : List (SbMessage String)) : Bus String :=
  { sendResult := fun _ => none
    peekResult := Except.ok msgs
    receiveResult := Except.ok msgs
    completeErr := fun _ => none
    abandonErr := fun _ => none
    deadLetterErr := fun _ => none
    senderCloseErr := none
    receiverCloseErr := none
    clientCloseErr := none }

theorem send_all_ok_returns_one_record_per_item_witness :
    (execute hostC1 (busAllOk [])).2 =
      Except.ok [(List.range hostC1.numItems).map
        fun i => sendOkRec i (hostC1.messageBody i)] :=
  send_all_ok_returns_one_record_per_item hostC1 (busAllOk [])
    rfl rfl (fun _ _ => rfl) rfl rfl

/-! ### Claim C2 -/

/-- C2: a send invocation with continue-on-failure enabled on which only
item k fails still returns exactly N records: record k is
`{success: false, itemIndex: k, error: message}`, every other record is the
success record it would be without the failure, and every item (also after
k) is attempted. -/
theorem send_continue_on_fail_records_failure_and_continues {β : Type}
    (host : Host β) (bus : Bus β) (k : Nat) (m : String)
    (hop : host.operation 0 = "send")
    (hcf : host.continueOnFail = true)
    (hk : k < host.numItems)
    (hm : bus.sendResult k = some m)
    (hok : ∀ i < host.numItems, i ≠ k → bus.sendResult i = none)
    (hsc : bus.senderCloseErr = none)
    (hcc : bus.clientCloseErr = none) :
    (execute host bus).2 =
      Except.ok [(List.range host.numItems).map
        fun i => if i = k then sendFailRec k m
                 else sendOkRec i (host.messageBody i)] ∧
    ((execute host bus).1).countP isSendMsg = host.numItems := by
  have hsend := sendItems_cof host bus hcf (List.range host.numItems)
  have hmap : ((List.range host.numItems).map fun i =>
      match bus.sendResult i with
      | none => sendOkRec i (host.messageBody i)
      | some e => sendFailRec i e) =
      (List.range host.numItems).map
        fun i => if i = k then sendFailRec k m
                 else sendOkRec i (host.messageBody i) := by
    refine List.map_congr_left fun i hi => ?_
    by_cases hik : i = k
    · subst hik; simp [hm]
    · simp [hok i (List.mem_range.mp hi) hik, hik]
  constructor
  · simp [execute, execBody, hop, hsend, hsc, hcc, hmap]
  · simp [execute, execBody, hop, hsend, hsc, hcc, isSendMsg, isCloseClient,
      isCloseSender, List.countP_cons, List.countP_append, List.countP_map,
      Function.comp_def]

/-- Concrete run for C2: three items, item 1 fails, continue-on-failure on. -/
def hostC2 : Host String :=
  { hostC1 with numItems := 3, continueOnFail := true }

def busC2 : Bus String :=
  { busAllOk [] with
    sendResult := fun i => if i = 1 then some "boom" else none }

theorem send_continue_on_fail_records_failure_and_continues_witness :
    (execute hostC2 busC2).2 =
      Except.ok [(List.range hostC2.numItems).map
        fun i => if i = 1 then sendFailRec 1 "boom"
                 else sendOkRec i (hostC2.messageBody i)] ∧
    ((execute hostC2 busC2).1).countP isSendMsg = hostC2.numItems :=
  send_continue_on_fail_records_failure_and_continues hostC2 busC2 1 "boom"
    rfl rfl (by decide) rfl (by decide) rfl rfl

/-! ### Claim C3 -/

/-- The item-index tag carried by the error an invocation propagates
(`none` when the invocation succeeded or the error carries no tag). -/
def errIdx {α : Type} : Except NodeErr α → Option Nat
  | Except.error e => e.itemIndex
  | Except.ok _ => none

/-- Concrete run for C3/C4: two items, item 0 fails, continue-on-failure
off. -/
def hostC3 : Host String :=
  { hostC1 with numItems := 2, continueOnFail := false }

def busC3 : Bus String :=
  { busAllOk [] with sendResult := fun i => if i = 0 then some "boom" else none }

/-- Counterexample to C3 as stated: with continue-on-failure disabled and
item 0 failing, the operation does fail as a whole, but the error `execute`
propagates is the outer wrapper of line 260, whose `itemIndex` option is
absent — it is not tagged with the failing index 0 (the tag of the inner
`NodeOperationError` of line 214 is lost in the re-wrap). -/
theorem send_abort_error_not_index_tagged :
    (execute hostC3 busC3).2 =
      Except.error { message := wrapMsg "send" "boom", itemIndex := none } ∧
    errIdx (execute hostC3 busC3).2 ≠ some 0 := by
  constructor
  · rfl
  · decide

/-- C3 amended: with continue-on-failure disabled, if item k is the first
to fail then the whole operation fails — with an operation-tagged error
whose message embeds the failing item's error message but whose item-index
tag is dropped by the outer catch — no item after k is attempted (exactly
k+1 sends occur), and the client handle is still released. -/
theorem send_abort_stops_and_releases_client {β : Type}
    (host : Host β) (bus : Bus β) (k : Nat) (m : String)
    (hop : host.operation 0 = "send")
    (hcf : host.continueOnFail = false)
    (hk : k < host.numItems)
    (hm : bus.sendResult k = some m)
    (hpre : ∀ i < k, bus.sendResult i = none)
    (hcc : bus.clientCloseErr = none) :
    (execute host bus).2 =
      Except.error { message := wrapMsg "send" m, itemIndex := none } ∧
    ((execute host bus).1).countP isSendMsg = k + 1 ∧
    ((execute host bus).1).countP isCloseClient = 1 := by
  have hdecomp : List.range host.numItems =
      List.range k ++ k ::
        ((List.range (host.numItems - (k + 1))).map fun j => (k + 1) + j) := by
    conv_lhs =>
      rw [show host.numItems = (k + 1) + (host.numItems - (k + 1)) from by omega]
    rw [List.range_add, List.range_succ]
    simp
  have hsend := sendItems_abort host bus hcf (List.range k) k
    ((List.range (host.numItems - (k + 1))).map fun j => (k + 1) + j) m
    (fun i hi => hpre i (List.mem_range.mp hi)) hm
  refine ⟨?_, ?_, ?_⟩
  · simp [execute, execBody, hop, hdecomp, hsend, hcc, wrapMsg]
  · simp [execute, execBody, hop, hdecomp, hsend, hcc, isSendMsg,
      List.countP_cons, List.countP_append, List.countP_map, Function.comp_def]
  · simp [execute, execBody, hop, hdecomp, hsend, hcc, isCloseClient,
      List.countP_cons, List.countP_append, List.countP_map, Function.comp_def]

theorem send_abort_stops_and_releases_client_witness :
    (execute hostC3 busC3).2 =
      Except.error { message := wrapMsg "send" "boom", itemIndex := none } ∧
    ((execute hostC3 busC3).1).countP isSendMsg = 0 + 1 ∧
    ((execute hostC3 busC3).1).countP isCloseClient = 1 :=
  send_abort_stops_and_releases_client hostC3 busC3 0 "boom"
    rfl rfl (by decide) rfl (by omega) rfl

/-! ### Trace-counting helpers -/

theorem countP_eq_zero_of_all_sendMsg {β : Type} (p : Ev β → Bool)
    (hp : ∀ b, p (Ev.sendMsg b) = false) (tr : List (Ev β))
    (h : ∀ e ∈ tr, isSendMsg e = true) : tr.countP p = 0 := by
  refine List.countP_eq_zero.mpr fun e he => ?_
  intro hpe
  have h2 := h e he
  cases e <;> simp [isSendMsg] at h2
  simp [hp] at hpe

theorem countP_eq_zero_of_all_postEv {β : Type} (p : Ev β → Bool)
    (hp1 : ∀ m, p (Ev.completeMessage m) = false)
    (hp2 : ∀ m, p (Ev.abandonMessage m) = false)
    (hp3 : ∀ m, p (Ev.deadLetterMessage m) = false)
    (tr : List (Ev β)) (h : ∀ e ∈ tr, isPostEv e = true) : tr.countP p = 0 := by
  refine List.countP_eq_zero.mpr fun e he => ?_
  intro hpe
  have h2 := h e he
  cases e <;> simp [isPostEv] at h2 <;>
    simp [hp1, hp2, hp3] at hpe

theorem execute_fst {β : Type} (host : Host β) (bus : Bus β) :
    (execute host bus).1 =
      Ev.createClient (host.connectionString 0) ::
        (execBody host bus).1 ++ [Ev.closeClient] := by
  rcases heb : execBody host bus with ⟨tr, res⟩
  cases res <;> cases hcc : bus.clientCloseErr <;> simp [execute, heb, hcc]

theorem execBody_countP_closeClient {β : Type} (host : Host β) (bus : Bus β) :
    ((execBody host bus).1).countP isCloseClient = 0 := by
  by_cases hop : host.operation 0 = "send"
  · rcases hsi : sendItems host bus (List.range host.numItems) with ⟨tr, recs, err⟩
    have hmem := sendItems_trace_mem host bus (List.range host.numItems)
    rw [hsi] at hmem
    have h0 : tr.countP isCloseClient = 0 :=
      countP_eq_zero_of_all_sendMsg _ (fun _ => rfl) tr hmem
    cases err <;> cases hsc : bus.senderCloseErr <;>
      simp [execBody, hop, hsi, hsc, List.countP_cons, List.countP_append, h0,
        isCloseClient]
  · by_cases hop2 : host.operation 0 = "receive"
    · by_cases hmode : host.receiveMode 0 = "peek"
      · cases hpk : bus.peekResult <;> cases hrc : bus.receiverCloseErr <;>
          simp [execBody, hop, hop2, hmode, hpk, hrc, isCloseClient,
            List.countP_cons]
      · cases hrr : bus.receiveResult with
        | error m =>
          simp [execBody, hop, hop2, hmode, hrr, isCloseClient, List.countP_cons]
        | ok msgs =>
          rcases hpl : postLoop bus (host.postProcess 0) msgs with ⟨ptr, perr⟩
          have hmem := postLoop_trace_mem bus (host.postProcess 0) msgs
          rw [hpl] at hmem
          have h0 : ptr.countP isCloseClient = 0 :=
            countP_eq_zero_of_all_postEv _ (fun _ => rfl) (fun _ => rfl)
              (fun _ => rfl) ptr hmem
          cases perr <;> cases hrc : bus.receiverCloseErr <;>
            simp [execBody, hop, hop2, hmode, hrr, hpl, hrc, isCloseClient,
              List.countP_cons, List.countP_append, h0]
    · simp [execBody, hop, hop2]

theorem execBody_countP_closeSender_le {β : Type} (host : Host β) (bus : Bus β) :
    ((execBody host bus).1).countP isCloseSender ≤ 1 := by
  by_cases hop : host.operation 0 = "send"
  · rcases hsi : sendItems host bus (List.range host.numItems) with ⟨tr, recs, err⟩
    have hmem := sendItems_trace_mem host bus (List.range host.numItems)
    rw [hsi] at hmem
    have h0 : tr.countP isCloseSender = 0 :=
      countP_eq_zero_of_all_sendMsg _ (fun _ => rfl) tr hmem
    cases err <;> cases hsc : bus.senderCloseErr <;>
      simp [execBody, hop, hsi, hsc, List.countP_cons, List.countP_append, h0,
        isCloseSender]
  · by_cases hop2 : host.operation 0 = "receive"
    · by_cases hmode : host.receiveMode 0 = "peek"
      · cases hpk : bus.peekResult <;> cases hrc : bus.receiverCloseErr <;>
          simp [execBody, hop, hop2, hmode, hpk, hrc, isCloseSender,
            List.countP_cons]
      · cases hrr : bus.receiveResult with
        | error m =>
          simp [execBody, hop, hop2, hmode, hrr, isCloseSender, List.countP_cons]
        | ok msgs =>
          rcases hpl : postLoop bus (host.postProcess 0) msgs with ⟨ptr, perr⟩
          have hmem := postLoop_trace_mem bus (host.postProcess 0) msgs
          rw [hpl] at hmem
          have h0 : ptr.countP isCloseSender = 0 :=
            countP_eq_zero_of_all_postEv _ (fun _ => rfl) (fun _ => rfl)
              (fun _ => rfl) ptr hmem
          cases perr <;> cases hrc : bus.receiverCloseErr <;>
            simp [execBody, hop, hop2, hmode, hrr, hpl, hrc, isCloseSender,
              List.countP_cons, List.countP_append, h0]
    · simp [execBody, hop, hop2]

theorem execBody_countP_closeReceiver_le {β : Type} (host : Host β) (bus : Bus β) :
    ((execBody host bus).1).countP isCloseReceiver ≤ 1 := by
  by_cases hop : host.operation 0 = "send"
  · rcases hsi : sendItems host bus (List.range host.numItems) with ⟨tr, recs, err⟩
    have hmem := sendItems_trace_mem host bus (List.range host.numItems)
    rw [hsi] at hmem
    have h0 : tr.countP isCloseReceiver = 0 :=
      countP_eq_zero_of_all_sendMsg _ (fun _ => rfl) tr hmem
    cases err <;> cases hsc : bus.senderCloseErr <;>
      simp [execBody, hop, hsi, hsc, List.countP_cons, List.countP_append, h0,
        isCloseReceiver]
  · by_cases hop2 : host.operation 0 = "receive"
    · by_cases hmode : host.receiveMode 0 = "peek"
      · cases hpk : bus.peekResult <;> cases hrc : bus.receiverCloseErr <;>
          simp [execBody, hop, hop2, hmode, hpk, hrc, isCloseReceiver,
            List.countP_cons]
      · cases hrr : bus.receiveResult with
        | error m =>
          simp [execBody, hop, hop2, hmode, hrr, isCloseReceiver,
            List.countP_cons]
        | ok msgs =>
          rcases hpl : postLoop bus (host.postProcess 0) msgs with ⟨ptr, perr⟩
          have hmem := postLoop_trace_mem bus (host.postProcess 0) msgs
          rw [hpl] at hmem
          have h0 : ptr.countP isCloseReceiver = 0 :=
            countP_eq_zero_of_all_postEv _ (fun _ => rfl) (fun _ => rfl)
              (fun _ => rfl) ptr hmem
          cases perr <;> cases hrc : bus.receiverCloseErr <;>
            simp [execBody, hop, hop2, hmode, hrr, hpl, hrc, isCloseReceiver,
              List.countP_cons, List.countP_append, h0]
    · simp [execBody, hop, hop2]

/-! ### Claim C4 -/

/-- Counterexample to C4 as stated: on the per-item abort exit path
(item 0 fails, continue-on-failure off) the sender was opened
(`createSender` occurs) but `sender.close()` on line 220 is never reached —
the sender handle is left open, so not every opened handle is closed on
every exit path. -/
theorem sender_left_open_on_abort :
    ((execute hostC3 busC3).1).countP isCreateSender = 1 ∧
    ((execute hostC3 busC3).1).countP isCloseSender = 0 := by
  constructor <;> rfl

/-- C4 amended: the client is closed exactly once on every exit path; the
sender and the receiver are closed at most once; the sender is closed
exactly once whenever the send loop completes (continue-on-failure on, or
no transmission failure), and the receiver exactly once whenever the fetch
and all post-processing succeed — but on an aborting error the
sender/receiver close is skipped and that handle is left open. -/
theorem handle_release_discipline {β : Type} (host : Host β) (bus : Bus β) :
    ((execute host bus).1).countP isCloseClient = 1 ∧
    ((execute host bus).1).countP isCloseSender ≤ 1 ∧
    ((execute host bus).1).countP isCloseReceiver ≤ 1 ∧
    (host.operation 0 = "send" →
      (host.continueOnFail = true ∨ ∀ i < host.numItems, bus.sendResult i = none) →
      ((execute host bus).1).countP isCloseSender = 1) ∧
    (host.operation 0 = "receive" →
      ((host.receiveMode 0 = "peek" ∧ ∃ msgs, bus.peekResult = Except.ok msgs) ∨
        (host.receiveMode 0 ≠ "peek" ∧ ∃ msgs,
          bus.receiveResult = Except.ok msgs ∧
          ∀ m ∈ msgs, postErr bus (host.postProcess 0) m = none)) →
      ((execute host bus).1).countP isCloseReceiver = 1) := by
  refine ⟨?_, ?_, ?_, ?_, ?_⟩
  · rw [execute_fst]
    simp [List.countP_cons, List.countP_append, isCloseClient,
      execBody_countP_closeClient]
  · rw [execute_fst]
    have h := execBody_countP_closeSender_le host bus
    simp [List.countP_cons, List.countP_append, isCloseSender]
    omega
  · rw [execute_fst]
    have h := execBody_countP_closeReceiver_le host bus
    simp [List.countP_cons, List.countP_append, isCloseReceiver]
    omega
  · intro hop hc
    have herr : (sendItems host bus (List.range host.numItems)).2.2 = none := by
      rcases hc with hcf | hok
      · rw [sendItems_cof host bus hcf]
      · rw [sendItems_all_ok host bus _ fun i hi => hok i (List.mem_range.mp hi)]
    rcases hsi : sendItems host bus (List.range host.numItems) with ⟨tr, recs, err⟩
    rw [hsi] at herr
    simp only at herr
    subst herr
    have hmem := sendItems_trace_mem host bus (List.range host.numItems)
    rw [hsi] at hmem
    have h0 : tr.countP isCloseSender = 0 :=
      countP_eq_zero_of_all_sendMsg _ (fun _ => rfl) tr hmem
    rw [execute_fst]
    cases hsc : bus.senderCloseErr <;>
      simp [execBody, hop, hsi, hsc, List.countP_cons, List.countP_append, h0,
        isCloseSender, isCloseClient]
  · intro hop2 hc
    have hop : ¬ host.operation 0 = "send" := by rw [hop2]; simp
    rw [execute_fst]
    rcases hc with ⟨hmode, msgs, hpk⟩ | ⟨hmode, msgs, hrr, hpost⟩
    · cases hrc : bus.receiverCloseErr <;>
        simp [execBody, hop, hop2, hmode, hpk, hrc, isCloseReceiver,
          isCloseClient, List.countP_cons, List.countP_append]
    · have hpl := postLoop_all_ok bus (host.postProcess 0) msgs hpost
      have hmem := postLoop_trace_mem bus (host.postProcess 0) msgs
      rw [hpl] at hmem
      have h0 : ((msgs.map fun m => (postStep bus (host.postProcess 0) m).1).flatten).countP
          isCloseReceiver = 0 :=
        countP_eq_zero_of_all_postEv _ (fun _ => rfl) (fun _ => rfl)
          (fun _ => rfl) _ hmem
      cases hrc : bus.receiverCloseErr <;>
        simp [execBody, hop, hop2, hmode, hrr, hpl, hrc, isCloseReceiver,
          isCloseClient, List.countP_cons, List.countP_append, h0]

theorem handle_release_discipline_witness :
    ((execute hostC1 (busAllOk [])).1).countP isCloseClient = 1 ∧
    ((execute hostC1 (busAllOk [])).1).countP isCloseSender ≤ 1 ∧
    ((execute hostC1 (busAllOk [])).1).countP isCloseReceiver ≤ 1 ∧
    (hostC1.operation 0 = "send" →
      (hostC1.continueOnFail = true ∨
        ∀ i < hostC1.numItems, (busAllOk []).sendResult i = none) →
      ((execute hostC1 (busAllOk [])).1).countP isCloseSender = 1) ∧
    (hostC1.operation 0 = "receive" →
      ((hostC1.receiveMode 0 = "peek" ∧
          ∃ msgs, (busAllOk []).peekResult = Except.ok msgs) ∨
        (hostC1.receiveMode 0 ≠ "peek" ∧ ∃ msgs,
          (busAllOk []).receiveResult = Except.ok msgs ∧
          ∀ m ∈ msgs, postErr (busAllOk []) (hostC1.postProcess 0) m = none)) →
      ((execute hostC1 (busAllOk [])).1).countP isCloseReceiver = 1) :=
  handle_release_discipline hostC1 (busAllOk [])

/-! ### Claim C5 -/

/-- Concrete run for C5: item 0 fails the send, and the final
`sbClient.close()` also fails. -/
def busC5 : Bus String :=
  { busC3 with clientCloseErr := some "closefail" }

/-- Counterexample to C5 as stated: with an originating send failure
("boom", which the catch wraps) and a failing client close ("closefail"),
`execute` propagates the close failure, not the originating error — the
rejection inside the `finally` block supersedes the pending error. -/
theorem client_close_error_masks_original :
    (execute hostC3 busC5).2 = Except.error { message := "closefail" } ∧
    (execute hostC3 busC5).2 ≠
      Except.error { message := wrapMsg "send" "boom", itemIndex := none } := by
  constructor
  · rfl
  · intro h
    have h1 : (execute hostC3 busC5).2 = Except.error { message := "closefail" } := rfl
    rw [h1] at h
    have h2 := Except.error.inj h
    simp [wrapMsg] at h2

/-- C5 amended: the client-release step is unconditional, but when it fails
its error takes precedence: `execute` propagates the release error and the
originating error is lost. -/
theorem client_close_error_takes_precedence {β : Type}
    (host : Host β) (bus : Bus β) (m : String)
    (hcc : bus.clientCloseErr = some m) :
    (execute host bus).2 = Except.error { message := m } := by
  rcases heb : execBody host bus with ⟨tr, res⟩
  cases res <;> simp [execute, heb, hcc]

theorem client_close_error_takes_precedence_witness :
    (execute hostC3 busC5).2 = Except.error { message := "closefail" } :=
  client_close_error_takes_precedence hostC3 busC5 "closefail" rfl

/-! ### Claim C6 -/

/-- C6: a successful receive invocation (peek, or receive with all
post-processing succeeding) returns exactly one result record
`{success: true, operation: "receive", queueOrTopic, subscriptionName,
messagesReceived}` where `messagesReceived` is the fetched messages'
bodies in fetch order (empty when no message was available). -/
theorem receive_returns_single_summary_record {β : Type}
    (host : Host β) (bus : Bus β) (msgs : List (SbMessage β))
    (hop : host.operation 0 = "receive")
    (hfetch : (host.receiveMode 0 = "peek" ∧ bus.peekResult = Except.ok msgs) ∨
      (host.receiveMode 0 ≠ "peek" ∧ bus.receiveResult = Except.ok msgs ∧
        ∀ m ∈ msgs, postErr bus (host.postProcess 0) m = none))
    (hrc : bus.receiverCloseErr = none)
    (hcc : bus.clientCloseErr = none) :
    (execute host bus).2 =
      Except.ok [[receiveRec (host.queueOrTopic 0) (host.subscriptionName 0)
        (msgs.map SbMessage.body)]] := by
  have hop1 : ¬ host.operation 0 = "send" := by rw [hop]; simp
  rcases hfetch with ⟨hmode, hpk⟩ | ⟨hmode, hrr, hpost⟩
  · simp [execute, execBody, hop, hop1, hmode, hpk, hrc, hcc]
  · have hpl := postLoop_all_ok bus (host.postProcess 0) msgs hpost
    simp [execute, execBody, hop, hop1, hmode, hrr, hpl, hrc, hcc]

/-- Concrete runs for the receive claims: peek mode with a subscription. -/
def hostC6 : Host String :=
  { hostC1 with
    operation := fun _ => "receive"
    subscriptionName := fun _ => "sub"
    receiveMode := fun _ => "peek" }

def msgsC6 : List (SbMessage String) :=
  [{ body := "m1", deliveryHandle := 7 }, { body := "m2", deliveryHandle := 8 }]

theorem receive_returns_single_summary_record_witness :
    (execute hostC6 (busAllOk msgsC6)).2 =
      Except.ok [[receiveRec (hostC6.queueOrTopic 0) (hostC6.subscriptionName 0)
        (msgsC6.map SbMessage.body)]] :=
  receive_returns_single_summary_record hostC6 (busAllOk msgsC6) msgsC6
    rfl (Or.inl ⟨rfl, rfl⟩) rfl rfl

/-! ### Claim C7 -/

/-- C7: on receive (either mode, whatever the SDK outcomes) exactly one
receiver is created, subscription-qualified precisely when the configured
subscription name is non-empty, else queue-qualified on the destination
alone. -/
theorem receiver_subscription_qualified_iff_nonempty {β : Type}
    (host : Host β) (bus : Bus β)
    (hop : host.operation 0 = "receive") :
    ((execute host bus).1).filter isCreateReceiver =
      [Ev.createReceiver (host.queueOrTopic 0)
        (if host.subscriptionName 0 = "" then none
         else some (host.subscriptionName 0))] := by
  have hop1 : ¬ host.operation 0 = "send" := by rw [hop]; simp
  rw [execute_fst]
  by_cases hmode : host.receiveMode 0 = "peek"
  · cases hpk : bus.peekResult <;> cases hrc : bus.receiverCloseErr <;>
      simp [execBody, hop, hop1, hmode, hpk, hrc, isCreateReceiver]
  · cases hrr : bus.receiveResult with
    | error m =>
      simp [execBody, hop, hop1, hmode, hrr, isCreateReceiver]
    | ok msgs =>
      rcases hpl : postLoop bus (host.postProcess 0) msgs with ⟨ptr, perr⟩
      have hmem := postLoop_trace_mem bus (host.postProcess 0) msgs
      rw [hpl] at hmem
      have h0 : ptr.filter isCreateReceiver = [] :=
        List.filter_eq_nil_iff.mpr fun e he => by
          have h2 := hmem e he
          cases e <;> simp [isPostEv] at h2 <;> simp [isCreateReceiver]
      cases perr <;> cases hrc : bus.receiverCloseErr <;>
        simp [execBody, hop, hop1, hmode, hrr, hpl, hrc, isCreateReceiver, h0]

theorem receiver_subscription_qualified_iff_nonempty_witness :
    ((execute hostC6 (busAllOk msgsC6)).1).filter isCreateReceiver =
      [Ev.createReceiver (hostC6.queueOrTopic 0)
        (if hostC6.subscriptionName 0 = "" then none
         else some (hostC6.subscriptionName 0))] :=
  receiver_subscription_qualified_iff_nonempty hostC6 (busAllOk msgsC6) rfl

/-! ### Claim C8 -/

theorem isPostEv_postEvOf {β : Type} (pp : String) (m : SbMessage β) :
    isPostEv (postEvOf pp m) = true := by
  unfold postEvOf
  split_ifs <;> rfl

/-- C8: in peek mode no post-processing call is made on any message; in
receiveAndComplete mode with `postProcess` one of complete/abandon/deadLetter,
exactly one post-processing call — the configured one — is made per fetched
message, in fetch order, all before the receiver is closed. -/
theorem post_processing_matches_configuration {β : Type}
    (host : Host β) (bus : Bus β) (msgs : List (SbMessage β))
    (hop : host.operation 0 = "receive") :
    (host.receiveMode 0 = "peek" →
      ((execute host bus).1).filter isPostEv = []) ∧
    (host.receiveMode 0 = "receiveAndComplete" →
      (host.postProcess 0 = "complete" ∨ host.postProcess 0 = "abandon" ∨
        host.postProcess 0 = "deadLetter") →
      bus.receiveResult = Except.ok msgs →
      (∀ m ∈ msgs, postErr bus (host.postProcess 0) m = none) →
      bus.receiverCloseErr = none →
      ((execute host bus).1).filter
          (fun e => isPostEv e || isCloseReceiver e) =
        msgs.map (postEvOf (host.postProcess 0)) ++ [Ev.closeReceiver]) := by
  have hop1 : ¬ host.operation 0 = "send" := by rw [hop]; simp
  constructor
  · intro hmode
    rw [execute_fst]
    cases hpk : bus.peekResult <;> cases hrc : bus.receiverCloseErr <;>
      simp [execBody, hop, hop1, hmode, hpk, hrc, isPostEv]
  · intro hmode hpp hrr hpost hrc
    have hmodene : ¬ host.receiveMode 0 = "peek" := by rw [hmode]; simp
    have hpl := postLoop_of_action bus (host.postProcess 0) msgs hpp hpost
    have hmap : (msgs.map (postEvOf (host.postProcess 0))).filter
        (fun e => isPostEv e || isCloseReceiver e) =
        msgs.map (postEvOf (host.postProcess 0)) :=
      List.filter_eq_self.mpr fun e he => by
        rcases List.mem_map.mp he with ⟨m, _, rfl⟩
        simp [isPostEv_postEvOf]
    rw [execute_fst]
    simp [execBody, hop, hop1, hmodene, hrr, hpl, hrc, isPostEv,
      isCloseReceiver, List.filter_append, hmap]
    intro a _
    left
    have h3 := isPostEv_postEvOf (host.postProcess 0) a
    simpa [isPostEv] using h3

/-- Concrete run for C8: receiveAndComplete with postProcess = complete. -/
def hostC8 : Host String :=
  { hostC6 with receiveMode := fun _ => "receiveAndComplete" }

theorem post_processing_matches_configuration_witness :
    (hostC8.receiveMode 0 = "peek" →
      ((execute hostC8 (busAllOk msgsC6)).1).filter isPostEv = []) ∧
    (hostC8.receiveMode 0 = "receiveAndComplete" →
      (hostC8.postProcess 0 = "complete" ∨ hostC8.postProcess 0 = "abandon" ∨
        hostC8.postProcess 0 = "deadLetter") →
      (busAllOk msgsC6).receiveResult = Except.ok msgsC6 →
      (∀ m ∈ msgsC6, postErr (busAllOk msgsC6) (hostC8.postProcess 0) m = none) →
      (busAllOk msgsC6).receiverCloseErr = none →
      ((execute hostC8 (busAllOk msgsC6)).1).filter
          (fun e => isPostEv e || isCloseReceiver e) =
        msgsC6.map (postEvOf (hostC8.postProcess 0)) ++ [Ev.closeReceiver]) :=
  post_processing_matches_configuration hostC8 (busAllOk msgsC6) msgsC6 rfl

/-! ### Claim C9 -/

/-- C9: an invocation whose operation is neither send nor receive performs
no bus call beyond opening and closing the client, raises no error, and
returns one empty output batch. -/
theorem unknown_operation_returns_empty_batch {β : Type}
    (host : Host β) (bus : Bus β)
    (hs : host.operation 0 ≠ "send")
    (hr : host.operation 0 ≠ "receive")
    (hcc : bus.clientCloseErr = none) :
    execute host bus =
      ([Ev.createClient (host.connectionString 0), Ev.closeClient],
        Except.ok [[]]) := by
  simp [execute, execBody, hs, hr, hcc]

def hostC9 : Host String := { hostC1 with operation := fun _ => "noop" }

theorem unknown_operation_returns_empty_batch_witness :
    execute hostC9 (busAllOk []) =
      ([Ev.createClient (hostC9.connectionString 0), Ev.closeClient],
        Except.ok [[]]) :=
  unknown_operation_returns_empty_batch hostC9 (busAllOk [])
    (by decide) (by decide) rfl

/-! ### Claim C10 -/

/-- C10: only `messageBody` is read per item; every other parameter is read
at item index 0 only.  Hence two host contexts that agree at index 0 on
connectionString, queueOrTopic, subscriptionName, operation and the receive
parameters, agree on every per-item messageBody, and agree on the input
count and the continue-on-failure flag, produce identical executions
against the same bus — whatever their other per-item parameter values. -/
theorem only_message_body_is_per_item {β : Type}
    (h1 h2 : Host β) (bus : Bus β)
    (e1 : h1.connectionString 0 = h2.connectionString 0)
    (e2 : h1.queueOrTopic 0 = h2.queueOrTopic 0)
    (e3 : h1.subscriptionName 0 = h2.subscriptionName 0)
    (e4 : h1.operation 0 = h2.operation 0)
    (e5 : ∀ i, h1.messageBody i = h2.messageBody i)
    (e6 : h1.maxMessages 0 = h2.maxMessages 0)
    (e7 : h1.maxWaitTime 0 = h2.maxWaitTime 0)
    (e8 : h1.postProcess 0 = h2.postProcess 0)
    (e9 : h1.receiveMode 0 = h2.receiveMode 0)
    (e10 : h1.numItems = h2.numItems)
    (e11 : h1.continueOnFail = h2.continueOnFail) :
    execute h1 bus = execute h2 bus := by
  have hsi : ∀ l, sendItems h1 bus l = sendItems h2 bus l := by
    intro l
    induction l with
    | nil => rfl
    | cons i rest ih =>
      cases hi : bus.sendResult i <;>
        simp [sendItems, hi, e5 i, e11, ih]
  have hbody : execBody h1 bus = execBody h2 bus := by
    unfold execBody
    rw [e2, e3, e4, e6, e7, e8, e9, e10, hsi]
  unfold execute
  rw [e1, e4, hbody]

def hostC10a : Host String :=
  { hostC1 with subscriptionName := fun i => if i = 0 then "s" else "x" }

def hostC10b : Host String :=
  { hostC1 with subscriptionName := fun i => if i = 0 then "s" else "y" }

theorem only_message_body_is_per_item_witness :
    execute hostC10a (busAllOk []) = execute hostC10b (busAllOk []) :=
  only_message_body_is_per_item hostC10a hostC10b (busAllOk [])
    rfl rfl rfl rfl (fun _ => rfl) rfl rfl rfl rfl rfl rfl

end AzureMessageBus
